import Mathlib

/-!
Shallow embedding of the `kube-gather` tool (`main.go`).

The program is a single-pass pipeline: it splits a `--resources` string
into `namespace:resourceType:resourceName` entries, dispatches each entry
to a per-kind ingestor, and the ingestors fetch the resource from the
cluster, serialize it and insert rows into a SQLite database.

External collaborators are modelled as an explicit environment `Env`:
 - the Kubernetes client (`getDeployment`, `getConfigMap`, `getSecret`,
   `listPods`, `openLogStream`), each fallible (`Except`);
 - the JSON serializer: a fetched resource carries the `Except`-valued
   result the corresponding `json.Marshal` call will produce
   (`specJson`, `statusJson`, `dataJson`);
 - the database engine's insert statements, which may fail per row
   (`insertFails`); `CREATE TABLE IF NOT EXISTS` follows SQLite
   semantics (succeeds whether or not the table exists), and
   `Result.LastInsertId` of the sqlite3 driver never fails.

The database is a value `DB`: the list of created tables, and per table
the rows and the next `AUTOINCREMENT` id.  Log blobs are byte strings,
modelled as `String`.
-/

namespace KubeGather

/-- Model of Go's `strings.Split` for a one-character separator
(the only way `main.go` calls it: on `"\n"` and on `":"`), at the level
of character lists. `strings.Split("", sep) = [""]` and separators at the
ends produce empty fields, as in Go. -/
def splitOnChar (sep : Char) : List Char → List (List Char)
  | [] => [[]]
  | c :: rest =>
    let r := splitOnChar sep rest
    if c = sep then [] :: r
    else (c :: r.headD []) :: r.tail

/-- `strings.Split s sep` for a one-character separator `sep`. -/
def splitString (sep : Char) (s : String) : List String :=
  (splitOnChar sep s.data).map String.mk

/-- The three resource kinds of the dispatch switch in `main`. -/
inductive RType
  | deployment
  | configmap
  | secret
deriving DecidableEq, Repr

/-- A parsed `(namespace, resourceType, resourceName)` triple (§3 of the
spec; the three variables bound at main.go:63). -/
structure ResourceSpec where
  ns : String
  rtype : RType
  rname : String
deriving DecidableEq, Repr

/-- What one iteration of main's resource loop (main.go:56-75) does with
one entry: dispatch to an ingestor with the parsed fields, or skip the
entry with one of the two reported reasons (`Invalid resource format`,
`Unsupported resource type`). -/
inductive Action
  | deployment (ns name : String)
  | configmap (ns name : String)
  | secret (ns name : String)
  | invalidFormat (entry : String)
  | unsupported (ns rtype name : String)
deriving DecidableEq, Repr

/-- The body of main's resource loop for a single entry: split on `":"`,
skip unless exactly three parts, then switch on the middle part.
Mirrors main.go:57-74. -/
def dispatchEntry (res : String) : Action :=
  match splitString ':' res with
  | [ns, rtype, name] =>
    if rtype = "deployment" then Action.deployment ns name
    else if rtype = "configmap" then Action.configmap ns name
    else if rtype = "secret" then Action.secret ns name
    else Action.unsupported ns rtype name
  | _ => Action.invalidFormat res

/-- The dispatch decisions of main's loop over a list of entries: one
`Action` per entry, in order (the loop never halts early). -/
def dispatchActions (entries : List String) : List Action :=
  entries.map dispatchEntry

/-- The ResourceSpec an action hands to an ingestor, if any. -/
def Action.dispatched : Action → Option ResourceSpec
  | .deployment ns name => some ⟨ns, RType.deployment, name⟩
  | .configmap ns name => some ⟨ns, RType.configmap, name⟩
  | .secret ns name => some ⟨ns, RType.secret, name⟩
  | .invalidFormat _ => none
  | .unsupported _ _ _ => none

/-- Modelled from the spec's words (§4.1, §8): a well-formed entry is one
whose split on `":"` has exactly three parts with a known resource type
among `deployment`, `configmap`, `secret`; it yields the ResourceSpec
with those three fields, and any other entry yields nothing.  This is
the spec side of the parser refinement claim; `dispatchEntry` is the
code side. -/
def specEntryParse (entry : String) : Option ResourceSpec :=
  match splitString ':' entry with
  | [ns, rtype, name] =>
    if rtype = "deployment" then some ⟨ns, RType.deployment, name⟩
    else if rtype = "configmap" then some ⟨ns, RType.configmap, name⟩
    else if rtype = "secret" then some ⟨ns, RType.secret, name⟩
    else none
  | _ => none

/-- A pod returned by the pod listing; only its name is used. -/
structure Pod where
  name : String
deriving DecidableEq, Repr

/-- An opened pod log stream: `content` is the bytes `ReadFrom` obtains
from the stream before EOF or a read error, and `readErr` records
whether the read stopped with an error.  main.go:199 discards
`ReadFrom`'s return values, so the code never looks at `readErr`. -/
structure LogStream where
  content : String
  readErr : Bool
deriving DecidableEq, Repr

/-- A fetched Deployment, carrying the results the two `json.Marshal`
calls (main.go:149,155) will produce for its spec and status. -/
structure DeploymentData where
  specJson : Except String String
  statusJson : Except String String

/-- A fetched ConfigMap, carrying the result `json.Marshal(configMap.Data)`
will produce. -/
structure ConfigMapData where
  dataJson : Except String String

/-- A fetched Secret, carrying the result `json.Marshal(secret.Data)`
will produce. -/
structure SecretData where
  dataJson : Except String String

/-- The content of one row handed to an `INSERT` statement (used to let
the environment decide per-row whether the insert fails). -/
inductive RowData
  | deployment (ns name spec status : String)
  | deploymentLog (deploymentId : Int) (logs : String)
  | configmap (ns name data : String)
  | secret (ns name data : String)

/-- The external world: the Kubernetes cluster seen through the client,
and the fallibility of the database engine's inserts. -/
structure Env where
  getDeployment : String → String → Except String DeploymentData
  getConfigMap : String → String → Except String ConfigMapData
  getSecret : String → String → Except String SecretData
  listPods : String → String → Except String (List Pod)
  openLogStream : String → String → Except String LogStream
  insertFails : RowData → Bool

/-- A row of the `deployments` table. -/
structure DeploymentRow where
  id : Int
  ns : String
  name : String
  spec : String
  status : String
deriving DecidableEq, Repr

/-- A row of the `deployment_logs` table. -/
structure DeploymentLogRow where
  id : Int
  deploymentId : Int
  logs : String
deriving DecidableEq, Repr

/-- A row of the `configmaps` or `secrets` table. -/
structure NamedDataRow where
  id : Int
  ns : String
  name : String
  data : String
deriving DecidableEq, Repr

/-- The SQLite database: which tables exist, and per table its rows and
the next `AUTOINCREMENT` id (SQLite starts at 1). -/
structure DB where
  tables : List String
  nextDeploymentId : Int
  deployments : List DeploymentRow
  nextDeploymentLogId : Int
  deploymentLogs : List DeploymentLogRow
  nextConfigMapId : Int
  configmaps : List NamedDataRow
  nextSecretId : Int
  secrets : List NamedDataRow
deriving DecidableEq, Repr

/-- A freshly opened, empty database file. -/
def DB.empty : DB :=
  ⟨[], 1, [], 1, [], 1, [], 1, []⟩

/-- One `CREATE TABLE IF NOT EXISTS t (...)` statement, with SQLite
semantics: a no-op succeeding when `t` already exists, otherwise it
creates `t`.  (The `Except` return mirrors the `db.Exec` error check in
the Go code.) -/
def addTable (db : DB) (t : String) : DB :=
  if t ∈ db.tables then db else { db with tables := db.tables ++ [t] }

/-- `db.Exec` of one create-table statement. -/
def createTableIfNotExists (db : DB) (t : String) : Except String DB :=
  Except.ok (addTable db t)

/-- `initializeDatabase` (main.go:78-138): executes the five
create-if-not-exists statements in order, stopping at the first error. -/
def initDatabase (db : DB) : Except String DB := do
  let db ← createTableIfNotExists db "deployments"
  let db ← createTableIfNotExists db "deployment_logs"
  let db ← createTableIfNotExists db "configmaps"
  let db ← createTableIfNotExists db "secrets"
  let db ← createTableIfNotExists db "deployment_dependencies"
  return db

/-- The result of running the five create statements, as a pure value. -/
def initTables (db : DB) : DB :=
  addTable (addTable (addTable (addTable
    (addTable db "deployments") "deployment_logs") "configmaps")
      "secrets") "deployment_dependencies"

/-- The loop body of `processDeploymentLogs` (main.go:190-201): for each
pod open a log stream; on failure report and `continue`; on success read
the stream into the accumulated buffer, ignoring `ReadFrom`'s error
(`readErr` is never consulted).  Returns the final buffer contents. -/
def collectLogs (env : Env) (ns : String) : List Pod → String
  | [] => ""
  | p :: rest =>
    match env.openLogStream ns p.name with
    | .error _ => collectLogs env ns rest
    | .ok stream => stream.content ++ collectLogs env ns rest

/-- `processDeploymentLogs` (main.go:179-209): list the pods labelled
`app=<deploymentName>` (a failure aborts with no row), accumulate their
logs, and insert one `deployment_logs` row (an insert failure is only
reported). -/
def processDeploymentLogs (env : Env) (db : DB) (ns deploymentName : String)
    (deploymentID : Int) : DB :=
  match env.listPods ns ("app=" ++ deploymentName) with
  | .error _ => db
  | .ok pods =>
    let logs := collectLogs env ns pods
    if env.insertFails (RowData.deploymentLog deploymentID logs) then db
    else
      { db with
        nextDeploymentLogId := db.nextDeploymentLogId + 1,
        deploymentLogs :=
          db.deploymentLogs ++ [⟨db.nextDeploymentLogId, deploymentID, logs⟩] }

/-- `processDeployment` (main.go:140-177): fetch, marshal spec and
status, insert a `deployments` row, then collect logs under the new id.
Every failure returns early, leaving the database as it stands. -/
def processDeployment (env : Env) (db : DB) (ns name : String) : DB :=
  match env.getDeployment ns name with
  | .error _ => db
  | .ok d =>
    match d.specJson with
    | .error _ => db
    | .ok sp =>
      match d.statusJson with
      | .error _ => db
      | .ok st =>
        if env.insertFails (RowData.deployment ns name sp st) then db
        else
          let deploymentID := db.nextDeploymentId
          let db1 :=
            { db with
              nextDeploymentId := db.nextDeploymentId + 1,
              deployments :=
                db.deployments ++ [⟨deploymentID, ns, name, sp, st⟩] }
          processDeploymentLogs env db1 ns name deploymentID

/-- `processConfigMap` (main.go:211-242): fetch, marshal the data map,
insert a `configmaps` row; every failure returns early. -/
def processConfigMap (env : Env) (db : DB) (ns name : String) : DB :=
  match env.getConfigMap ns name with
  | .error _ => db
  | .ok cm =>
    match cm.dataJson with
    | .error _ => db
    | .ok s =>
      if env.insertFails (RowData.configmap ns name s) then db
      else
        { db with
          nextConfigMapId := db.nextConfigMapId + 1,
          configmaps := db.configmaps ++ [⟨db.nextConfigMapId, ns, name, s⟩] }

/-- `processSecret` (main.go:244-275): symmetric to `processConfigMap`. -/
def processSecret (env : Env) (db : DB) (ns name : String) : DB :=
  match env.getSecret ns name with
  | .error _ => db
  | .ok sec =>
    match sec.dataJson with
    | .error _ => db
    | .ok s =>
      if env.insertFails (RowData.secret ns name s) then db
      else
        { db with
          nextSecretId := db.nextSecretId + 1,
          secrets := db.secrets ++ [⟨db.nextSecretId, ns, name, s⟩] }

/-- The effect on the database of main's loop body for one entry. -/
def runEntry (env : Env) (db : DB) (res : String) : DB :=
  match dispatchEntry res with
  | .deployment ns name => processDeployment env db ns name
  | .configmap ns name => processConfigMap env db ns name
  | .secret ns name => processSecret env db ns name
  | .invalidFormat _ => db
  | .unsupported _ _ _ => db

/-- Main's resource loop over the database. -/
def runEntries (env : Env) (db : DB) : List String → DB
  | [] => db
  | e :: rest => runEntries env (runEntry env db e) rest

/-! ### Event-trace model of the log collector's stream handling

`processDeploymentLogs` opens one log stream per pod and closes it with
`defer logStream.Close()` (main.go:196).  Go runs deferred calls when the
surrounding *function* returns, last-deferred first — not at the end of
the loop iteration.  To reason about when streams are opened and closed
we give the function a trace semantics. -/

/-- Observable stream / insert events of `processDeploymentLogs`. -/
inductive Ev
  | opened (pod : String)
  | closed (pod : String)
  | logRowInsert
deriving DecidableEq, Repr

/-- The loop of `processDeploymentLogs` as events: first component the
events emitted by the loop body in order, second component the deferred
`Close` calls in the order they were deferred (Go runs them in reverse
at function exit). -/
def logsLoopTrace (env : Env) (ns : String) : List Pod → List Ev × List Ev
  | [] => ([], [])
  | p :: rest =>
    match env.openLogStream ns p.name with
    | .error _ => logsLoopTrace env ns rest
    | .ok _ =>
      let r := logsLoopTrace env ns rest
      (Ev.opened p.name :: r.1, Ev.closed p.name :: r.2)

/-- The event trace of one `processDeploymentLogs` call: the loop's
events, the attempted `deployment_logs` insert, then the deferred
closes in reverse (LIFO) order at function exit. -/
def processDeploymentLogsTrace (env : Env) (ns deploymentName : String) :
    List Ev :=
  match env.listPods ns ("app=" ++ deploymentName) with
  | .error _ => []
  | .ok pods =>
    let r := logsLoopTrace env ns pods
    r.1 ++ [Ev.logRowInsert] ++ r.2.reverse

/-- Running count of simultaneously open streams along a trace, starting
from `n` open; returns the maximum reached. -/
def maxOpenFrom : List Ev → Nat → Nat
  | [], _ => 0
  | Ev.opened _ :: rest, n => max (n + 1) (maxOpenFrom rest (n + 1))
  | Ev.closed _ :: rest, n => maxOpenFrom rest (n - 1)
  | Ev.logRowInsert :: rest, n => maxOpenFrom rest n

/-- Maximum number of log streams simultaneously open during a trace.
If every stream were released before the next pod's stream is opened,
this would never exceed 1. -/
def maxOpenStreams (tr : List Ev) : Nat :=
  maxOpenFrom tr 0

/-! ### Concrete environments used to witness the theorems -/

/-- A healthy environment: every fetch succeeds with fixed serialized
payloads, the pod listing is empty, and no insert fails. -/
def envA : Env where
  getDeployment := fun _ _ => Except.ok ⟨Except.ok "SP", Except.ok "ST"⟩
  getConfigMap := fun _ _ => Except.ok ⟨Except.ok "CD"⟩
  getSecret := fun _ _ => Except.ok ⟨Except.ok "SD"⟩
  listPods := fun _ _ => Except.ok []
  openLogStream := fun _ _ => Except.error "no stream"
  insertFails := fun _ => false

/-- Three pods of which exactly the middle one fails to open its log
stream. -/
def envB : Env :=
  { envA with
    listPods := fun _ _ => Except.ok [⟨"p1"⟩, ⟨"p2"⟩, ⟨"p3"⟩],
    openLogStream := fun _ p =>
      if p = "p2" then Except.error "boom" else Except.ok ⟨"L" ++ p, false⟩ }

/-- Pod listing fails at the transport level. -/
def envC : Env :=
  { envA with listPods := fun _ _ => Except.error "transport" }

/-- Every fetch fails. -/
def envErr : Env :=
  { envA with
    getDeployment := fun _ _ => Except.error "nope",
    getConfigMap := fun _ _ => Except.error "nope",
    getSecret := fun _ _ => Except.error "nope" }

/-- A stream whose read stops with an error after transferring some
bytes. -/
def envD : Env :=
  { envA with
    listPods := fun _ _ => Except.ok [⟨"p"⟩],
    openLogStream := fun _ _ => Except.ok ⟨"PARTIAL", true⟩ }

/-- Two pods, both of whose log streams open successfully. -/
def envTwo : Env :=
  { envA with
    listPods := fun _ _ => Except.ok [⟨"p1"⟩, ⟨"p2"⟩],
    openLogStream := fun _ _ => Except.ok ⟨"", false⟩ }

/-- `Except.isOk` as a plain definition. -/
def isOkE {α : Type} : Except String α → Bool
  | .ok _ => true
  | .error _ => false

/-- The content a stream-open result contributes, if it opened. -/
def streamContent : Except String LogStream → Option String
  | .ok s => some s.content
  | .error _ => none

/-- Concatenation of a list of strings, in order, with no delimiter. -/
def concatOf : List String → String
  | [] => ""
  | s :: rest => s ++ concatOf rest

/-! ### Theorems -/

/-- Pointwise agreement of the loop's dispatch decision with the
spec-side parse of a single entry. -/
theorem dispatched_dispatchEntry (e : String) :
    (dispatchEntry e).dispatched = specEntryParse e := by
  unfold dispatchEntry specEntryParse
  generalize splitString ':' e = ps
  rcases ps with _ | ⟨a, _ | ⟨b, _ | ⟨c, _ | ⟨d, t⟩⟩⟩⟩
  · rfl
  · rfl
  · rfl
  · show (if b = "deployment" then Action.deployment a c
        else if b = "configmap" then Action.configmap a c
        else if b = "secret" then Action.secret a c
        else Action.unsupported a b c).dispatched
      = (if b = "deployment" then some ⟨a, RType.deployment, c⟩
        else if b = "configmap" then some ⟨a, RType.configmap, c⟩
        else if b = "secret" then some ⟨a, RType.secret, c⟩
        else none)
    split_ifs <;> rfl
  · rfl

/-- Claim C1: for every input string of newline-separated entries, main's
loop handles every entry (no early halt: one dispatch decision per
entry), a single entry is dispatched exactly when it is well-formed
(three colon-parts with a known type), carrying exactly those three
fields, and the sequence of dispatched ResourceSpecs over the whole
input equals the spec-side parse: one spec per well-formed entry, none
for a malformed one. -/
theorem dispatch_wellformed_exactly_once (input : String) :
    (dispatchActions (splitString '\n' input)).length
        = (splitString '\n' input).length ∧
    (∀ e : String, (dispatchEntry e).dispatched = specEntryParse e) ∧
    (dispatchActions (splitString '\n' input)).filterMap Action.dispatched
        = (splitString '\n' input).filterMap specEntryParse := by
  refine ⟨by simp [dispatchActions], dispatched_dispatchEntry, ?_⟩
  have h : Action.dispatched ∘ dispatchEntry = specEntryParse :=
    funext dispatched_dispatchEntry
  simp only [dispatchActions, List.filterMap_map, h]

/-- Claim C10: three-part entries are not validated for non-emptiness:
`"ns:deployment:"` dispatches a deployment fetch with an empty resource
name, while `"::"` passes the three-part check (its split has length 3)
and is rejected only at the dispatch switch as an unsupported resource
type. -/
theorem threepart_fields_not_validated :
    dispatchEntry "ns:deployment:" = Action.deployment "ns" "" ∧
    (splitString ':' "::").length = 3 ∧
    dispatchEntry "::" = Action.unsupported "" "" "" :=
  ⟨rfl, rfl, rfl⟩

/-- The log collector never touches the `deployments` table. -/
theorem processDeploymentLogs_deployments (env : Env) (db : DB)
    (ns n : String) (id : Int) :
    (processDeploymentLogs env db ns n id).deployments = db.deployments := by
  unfold processDeploymentLogs
  cases h : env.listPods ns ("app=" ++ n) with
  | error m => rfl
  | ok pods =>
    dsimp only
    split
    · rfl
    · rfl

/-- On the success path (fetch, both marshals, and the insert succeed),
`processDeployment` appends the new row and continues as log collection
under the generated id. -/
theorem processDeployment_success (env : Env) (db : DB)
    (ns name sp st : String) (d : DeploymentData)
    (hfetch : env.getDeployment ns name = Except.ok d)
    (hsp : d.specJson = Except.ok sp)
    (hst : d.statusJson = Except.ok st)
    (hins : env.insertFails (RowData.deployment ns name sp st) = false) :
    processDeployment env db ns name
        = processDeploymentLogs env
            { db with
              nextDeploymentId := db.nextDeploymentId + 1,
              deployments :=
                db.deployments ++ [⟨db.nextDeploymentId, ns, name, sp, st⟩] }
            ns name db.nextDeploymentId := by
  unfold processDeployment
  rw [hfetch]
  dsimp only
  rw [hsp]
  dsimp only
  rw [hst]
  dsimp only
  rw [hins]
  simp

/-- Claim C2: when fetch, both marshals and the insert succeed, the
`deployments` table gains exactly the one row
`(db.nextDeploymentId, ns, name, sp, st)` (first conjunct, valid for the
whole call, whatever log collection does afterwards), and the call
continues as log collection on the updated database with
`deployment_id` equal to that row's generated id (second conjunct). -/
theorem deployment_row_and_log_id (env : Env) (db : DB)
    (ns name sp st : String) (d : DeploymentData)
    (hfetch : env.getDeployment ns name = Except.ok d)
    (hsp : d.specJson = Except.ok sp)
    (hst : d.statusJson = Except.ok st)
    (hins : env.insertFails (RowData.deployment ns name sp st) = false) :
    (processDeployment env db ns name).deployments
        = db.deployments ++ [⟨db.nextDeploymentId, ns, name, sp, st⟩] ∧
    processDeployment env db ns name
        = processDeploymentLogs env
            { db with
              nextDeploymentId := db.nextDeploymentId + 1,
              deployments :=
                db.deployments ++ [⟨db.nextDeploymentId, ns, name, sp, st⟩] }
            ns name db.nextDeploymentId := by
  have hrun := processDeployment_success env db ns name sp st d hfetch hsp hst hins
  exact ⟨by rw [hrun, processDeploymentLogs_deployments], hrun⟩

/-- Witness for C2 at a concrete healthy environment. -/
theorem deployment_row_and_log_id_witness :
    (processDeployment envA DB.empty "ns" "foo").deployments
        = DB.empty.deployments
            ++ [⟨DB.empty.nextDeploymentId, "ns", "foo", "SP", "ST"⟩] ∧
    processDeployment envA DB.empty "ns" "foo"
        = processDeploymentLogs envA
            { DB.empty with
              nextDeploymentId := DB.empty.nextDeploymentId + 1,
              deployments :=
                DB.empty.deployments
                  ++ [⟨DB.empty.nextDeploymentId, "ns", "foo", "SP", "ST"⟩] }
            "ns" "foo" DB.empty.nextDeploymentId :=
  deployment_row_and_log_id envA DB.empty "ns" "foo" "SP" "ST"
    ⟨Except.ok "SP", Except.ok "ST"⟩ rfl rfl rfl rfl

/-- Claim C3: when the pod listing succeeds with zero pods and the
engine accepts the row, the log collector still inserts exactly one
`deployment_logs` row, and its blob is the empty byte string. -/
theorem zero_pods_one_empty_log_row (env : Env) (db : DB)
    (ns name : String) (id : Int)
    (hlist : env.listPods ns ("app=" ++ name) = Except.ok [])
    (hins : env.insertFails (RowData.deploymentLog id "") = false) :
    (processDeploymentLogs env db ns name id).deploymentLogs
        = db.deploymentLogs ++ [⟨db.nextDeploymentLogId, id, ""⟩] := by
  unfold processDeploymentLogs
  rw [hlist]
  simp [collectLogs, hins]

/-- Witness for C3: `envA` lists zero pods. -/
theorem zero_pods_one_empty_log_row_witness :
    (processDeploymentLogs envA DB.empty "ns" "foo" 1).deploymentLogs
        = DB.empty.deploymentLogs ++ [⟨DB.empty.nextDeploymentLogId, 1, ""⟩] :=
  zero_pods_one_empty_log_row envA DB.empty "ns" "foo" 1 rfl rfl

/-- Claim C7: after a successful fetch, marshal and `deployments`
insert, the inserted row stays in the table — exactly the appended
row, never removed or changed — even when a later step of log
collection (pod listing, a log stream, or the `deployment_logs` insert)
fails: the code has no rollback. -/
theorem deployment_row_persists (env : Env) (db : DB)
    (ns name sp st : String) (d : DeploymentData)
    (hfetch : env.getDeployment ns name = Except.ok d)
    (hsp : d.specJson = Except.ok sp)
    (hst : d.statusJson = Except.ok st)
    (hins : env.insertFails (RowData.deployment ns name sp st) = false)
    (hlater : isOkE (env.listPods ns ("app=" ++ name)) = false
        ∨ (∃ p : Pod, isOkE (env.openLogStream ns p.name) = false)
        ∨ (∃ logs : String,
            env.insertFails
              (RowData.deploymentLog db.nextDeploymentId logs) = true)) :
    (processDeployment env db ns name).deployments
        = db.deployments ++ [⟨db.nextDeploymentId, ns, name, sp, st⟩] := by
  rw [processDeployment_success env db ns name sp st d hfetch hsp hst hins,
    processDeploymentLogs_deployments]

/-- Witness for C7: in `envC` the pod listing fails at the transport
level, yet the deployment row is in the final table. -/
theorem deployment_row_persists_witness :
    (processDeployment envC DB.empty "ns" "foo").deployments
        = DB.empty.deployments
            ++ [⟨DB.empty.nextDeploymentId, "ns", "foo", "SP", "ST"⟩] :=
  deployment_row_persists envC DB.empty "ns" "foo" "SP" "ST"
    ⟨Except.ok "SP", Except.ok "ST"⟩ rfl rfl rfl rfl (Or.inl rfl)

/-- The accumulated buffer is the delimiter-free concatenation, in pod
listing order, of the contents of exactly those streams that opened. -/
theorem collectLogs_filterMap (env : Env) (ns : String) (l : List Pod) :
    collectLogs env ns l
      = concatOf (l.filterMap fun p => streamContent (env.openLogStream ns p.name)) := by
  induction l with
  | nil => rfl
  | cons p rest ih =>
    unfold collectLogs
    cases h : env.openLogStream ns p.name with
    | error m => simp [List.filterMap_cons, h, streamContent, ih]
    | ok s => simp [List.filterMap_cons, h, streamContent, concatOf, ih]

/-- Claim C4: with three listed pods of which exactly one fails to open
its log stream (exactly two of the three open results carry content),
the single inserted blob is the delimiter-free concatenation, in
listing order, of the streams that opened — i.e. of the other two pods'
output; the failing pod is skipped and nothing aborts the call. -/
theorem one_failing_stream_skipped (env : Env) (db : DB)
    (ns name : String) (id : Int) (a b c : Pod)
    (hlist : env.listPods ns ("app=" ++ name) = Except.ok [a, b, c])
    (hone : ([env.openLogStream ns a.name, env.openLogStream ns b.name,
        env.openLogStream ns c.name].countP
          fun r => (streamContent r).isSome) = 2)
    (hins : env.insertFails (RowData.deploymentLog id
        (concatOf ([a, b, c].filterMap
          fun p => streamContent (env.openLogStream ns p.name)))) = false) :
    (processDeploymentLogs env db ns name id).deploymentLogs
        = db.deploymentLogs
            ++ [⟨db.nextDeploymentLogId, id,
                concatOf ([a, b, c].filterMap
                  fun p => streamContent (env.openLogStream ns p.name))⟩] := by
  unfold processDeploymentLogs
  rw [hlist]
  dsimp only
  rw [collectLogs_filterMap]
  rw [hins]
  simp

/-- Witness for C4: in `envB` the middle of three pods fails to open its
stream, and the blob is the other two pods' output concatenated. -/
theorem one_failing_stream_skipped_witness :
    (processDeploymentLogs envB DB.empty "ns" "web" 1).deploymentLogs
        = DB.empty.deploymentLogs
            ++ [⟨DB.empty.nextDeploymentLogId, 1,
                concatOf (([⟨"p1"⟩, ⟨"p2"⟩, ⟨"p3"⟩] : List Pod).filterMap
                  fun p => streamContent (envB.openLogStream "ns" p.name))⟩] :=
  one_failing_stream_skipped envB DB.empty "ns" "web" 1
    ⟨"p1"⟩ ⟨"p2"⟩ ⟨"p3"⟩ rfl rfl rfl

/-- Claim C9: when a pod's stream opens, its transferred bytes are
appended to the buffer and the tail pods are processed next, whatever
the value of `readErr` — a read error is silently discarded (main.go
ignores `ReadFrom`'s return values), the pod is not skipped and no
error path is taken. -/
theorem read_error_silently_ignored (env : Env) (ns : String) (p : Pod)
    (rest : List Pod) (s : LogStream)
    (hopen : env.openLogStream ns p.name = Except.ok s) :
    collectLogs env ns (p :: rest) = s.content ++ collectLogs env ns rest := by
  conv_lhs => rw [collectLogs]
  rw [hopen]

/-- Witness for C9: in `envD` the stream's read fails after transferring
`"PARTIAL"`, which still reaches the buffer. -/
theorem read_error_silently_ignored_witness :
    collectLogs envD "ns" [⟨"p"⟩] = "PARTIAL" ++ collectLogs envD "ns" [] :=
  read_error_silently_ignored envD "ns" ⟨"p"⟩ [] ⟨"PARTIAL", true⟩ rfl

/-- Claim C5 is refuted by the code: `defer logStream.Close()` sits in
the pod loop, and Go runs deferred calls at *function* exit, not at the
end of the iteration.  With two pods whose streams both open, the trace
opens the second stream before the first is closed, both closes happen
only after the `deployment_logs` insert, and two streams are
simultaneously open — the claim requires the maximum to be 1. -/
theorem streams_closed_only_at_function_exit :
    processDeploymentLogsTrace envTwo "ns" "web"
        = [Ev.opened "p1", Ev.opened "p2", Ev.logRowInsert,
           Ev.closed "p2", Ev.closed "p1"] ∧
    maxOpenStreams (processDeploymentLogsTrace envTwo "ns" "web") = 2 :=
  ⟨rfl, rfl⟩

/-- The table a create statement names is present afterwards. -/
theorem mem_addTable_self (db : DB) (t : String) :
    t ∈ (addTable db t).tables := by
  unfold addTable
  split
  · assumption
  · simp

/-- A create statement never removes a table. -/
theorem mem_addTable_mono (db : DB) (s t : String) (h : s ∈ db.tables) :
    s ∈ (addTable db t).tables := by
  unfold addTable
  split
  · exact h
  · simp [h]

/-- `CREATE TABLE IF NOT EXISTS` is a no-op on an existing table. -/
theorem addTable_of_mem (db : DB) (t : String) (h : t ∈ db.tables) :
    addTable db t = db := by
  unfold addTable
  simp [h]

/-- Claim C6: database initialization is idempotent — the first call
succeeds and yields a database with all five tables present, and a
second call on that database also succeeds and returns it unchanged
(so the same five tables are present after both calls). -/
theorem initDatabase_idempotent (db : DB) :
    ∃ db1 : DB,
      initDatabase db = Except.ok db1 ∧
      initDatabase db1 = Except.ok db1 ∧
      "deployments" ∈ db1.tables ∧
      "deployment_logs" ∈ db1.tables ∧
      "configmaps" ∈ db1.tables ∧
      "secrets" ∈ db1.tables ∧
      "deployment_dependencies" ∈ db1.tables := by
  have h1 : "deployments" ∈ (initTables db).tables :=
    mem_addTable_mono _ _ _ (mem_addTable_mono _ _ _ (mem_addTable_mono _ _ _
      (mem_addTable_mono _ _ _ (mem_addTable_self _ _))))
  have h2 : "deployment_logs" ∈ (initTables db).tables :=
    mem_addTable_mono _ _ _ (mem_addTable_mono _ _ _ (mem_addTable_mono _ _ _
      (mem_addTable_self _ _)))
  have h3 : "configmaps" ∈ (initTables db).tables :=
    mem_addTable_mono _ _ _ (mem_addTable_mono _ _ _ (mem_addTable_self _ _))
  have h4 : "secrets" ∈ (initTables db).tables :=
    mem_addTable_mono _ _ _ (mem_addTable_self _ _)
  have h5 : "deployment_dependencies" ∈ (initTables db).tables :=
    mem_addTable_self _ _
  refine ⟨initTables db, rfl, ?_, h1, h2, h3, h4, h5⟩
  generalize hg : initTables db = X at h1 h2 h3 h4 h5 ⊢
  show Except.ok (initTables X) = Except.ok X
  unfold initTables
  rw [addTable_of_mem _ _ h1, addTable_of_mem _ _ h2, addTable_of_mem _ _ h3,
    addTable_of_mem _ _ h4, addTable_of_mem _ _ h5]

/-- Claim C8: the ConfigMap ingestor.  First conjunct: when fetch,
marshal of the data mapping and the insert succeed, exactly one
`configmaps` row is added, with the given namespace and name and with
`data` equal to the marshalled encoding of the fetched configmap's data
mapping.  Second conjunct: a failure of fetch, of serialization or of
the insert leaves the database exactly as it was — the ingestion of
this one resource is aborted and nothing else is touched (main's loop
then continues with the next entry by the shape of `runEntries`). -/
theorem configmap_row_or_abort (env : Env) (db : DB) (ns name : String) :
    (∀ (cm : ConfigMapData) (s : String),
        env.getConfigMap ns name = Except.ok cm →
        cm.dataJson = Except.ok s →
        env.insertFails (RowData.configmap ns name s) = false →
        processConfigMap env db ns name
          = { db with
              nextConfigMapId := db.nextConfigMapId + 1,
              configmaps :=
                db.configmaps ++ [⟨db.nextConfigMapId, ns, name, s⟩] }) ∧
    ((∃ m, env.getConfigMap ns name = Except.error m)
      ∨ (∃ cm m, env.getConfigMap ns name = Except.ok cm
            ∧ cm.dataJson = Except.error m)
      ∨ (∃ cm s, env.getConfigMap ns name = Except.ok cm
            ∧ cm.dataJson = Except.ok s
            ∧ env.insertFails (RowData.configmap ns name s) = true) →
      processConfigMap env db ns name = db) := by
  constructor
  · intro cm s hfetch hdata hins
    unfold processConfigMap
    rw [hfetch]
    dsimp only
    rw [hdata]
    dsimp only
    rw [hins]
    simp
  · rintro (⟨m, hm⟩ | ⟨cm, m, hcm, hm⟩ | ⟨cm, s, hcm, hs, hins⟩) <;>
      unfold processConfigMap
    · rw [hm]
    · rw [hcm]
      dsimp only
      rw [hm]
    · rw [hcm]
      dsimp only
      rw [hs]
      dsimp only
      rw [hins]
      simp

/-- Witness for C8: in `envA` the configmap `ns/cm1` is stored with the
marshalled data `"CD"`; in `envErr` the fetch fails and the database is
untouched. -/
theorem configmap_row_or_abort_witness :
    processConfigMap envA DB.empty "ns" "cm1"
        = { DB.empty with
            nextConfigMapId := DB.empty.nextConfigMapId + 1,
            configmaps :=
              DB.empty.configmaps
                ++ [⟨DB.empty.nextConfigMapId, "ns", "cm1", "CD"⟩] } ∧
    processConfigMap envErr DB.empty "ns" "cm1" = DB.empty :=
  ⟨(configmap_row_or_abort envA DB.empty "ns" "cm1").1
      ⟨Except.ok "CD"⟩ "CD" rfl rfl rfl,
   (configmap_row_or_abort envErr DB.empty "ns" "cm1").2
      (Or.inl ⟨"nope", rfl⟩)⟩

end KubeGather
